import Mathlib

/-!
# RIASM interpreter: shallow embedding of `src/asm_definition.rs`

This file embeds the interpreter engine of the RIASM repository
(`ASMDefinition` in `src/asm_definition.rs`) into Lean 4 and proves the
frozen specification claims about it.

Modelling conventions:

* Rust `HashMap` tables (`registers`, `labels`, and the instruction
  table) are embedded as association lists with first-match lookup;
  `HashMap::insert` (which replaces an existing key) is embedded as a
  prepend, which is extensionally the same for `lookup`/`contains_key`.
* The Rust struct `ASMDefinition` stores its instruction table inline;
  an instruction is a callback `fn(&mut ASMDefinition, Vec<ASMValue>)`
  receiving the whole machine, which a Lean structure cannot store
  (negative occurrence).  Since the table is populated once at setup
  and is read-only during `scan`/`run` (no code path mutates it after
  construction), the embedding passes the table as an explicit
  parameter `instrs` to `scan`, `run` and `interpret` and keeps the
  rest of the machine state in the structure `ASMDefinition`.
* The fields `_priority` (dead: written once, never read) and
  `ptr_to_self` (the raw self-pointer, replaced here by explicit
  context passing exactly as spec section 9 prescribes) are omitted.
* `println!` diagnostics from `raise_exception` are modelled by an
  extra ghost field `log : List String` recording the messages in
  order; it affects nothing else.
* `run`'s `while` loop can diverge (jumps can move the cursor
  backwards, and error branches `continue` without advancing it), so
  it is embedded with explicit fuel: `none` means the fuel ran out
  before the loop returned.  Termination of the source loop on a given
  input is the proposition "some fuel suffices".
* Rust panics (`unwrap` on `None`, `todo!()`, failing `parse::<i32>`)
  are modelled by `Option`: `scan` returns `none` exactly when the
  source code would panic.
* Rust's `char::is_numeric` / `char::is_alphanumeric` /
  `char::is_whitespace` are Unicode predicates; the embedding uses
  their ASCII fragments (`Char.isDigit`, `Char.isAlphanum`,
  `Char.isWhitespace`), which agree on every input appearing in the
  claims.
-/

/-- `ASMValueHolder` from `asm_value.rs`.  Modelled from the spec:
`asm_value.rs` is not under `src/`; spec section 3 defines Value as the
tagged payload `Int(i32) | Label(name) | Register(name) | Empty`, with
the back-pointer to the owning machine replaced by explicit context
passing (spec section 9). -/
inductive ASMValue where
  | Int (n : Int) : ASMValue
  | Label (s : String) : ASMValue
  | Register (s : String) : ASMValue
  | Empty : ASMValue
deriving DecidableEq, Repr

/-- `ASTNode` from `asm_definition.rs` (lines 8-14). -/
inductive ASTNode where
  | ASTValue (v : ASMValue) : ASTNode
  | ASTInstruction (s : String) : ASTNode
  | ASTRegister (s : String) : ASTNode
  | ASTExprEnd : ASTNode
deriving DecidableEq, Repr

/-- The mutable machine state of `ASMDefinition` (lines 16-25): the
`registers` and `labels` tables, the error counter, the halt flag and
the cursor `current_line`.  `log` is a ghost field recording the
diagnostic messages printed by `raise_exception`.  The instruction
table is passed separately (see the header comment). -/
structure ASMDefinition where
  registers : List (String × ASMValue)
  labels : List (String × Nat)
  log : List String
  errors : Nat
  halted : Bool
  current_line : Nat
deriving DecidableEq, Repr

/-- An instruction callback, `fn(&mut ASMDefinition, Vec<ASMValue>)`.
Modelled from the spec: `asm_instruction.rs` is not under `src/`; spec
sections 2 and 4.2 define an Instruction as a host-supplied callback
`(machine-state, argument-list) → ()` invoked by the dispatcher. -/
def ASMInstruction : Type := ASMDefinition → List ASMValue → ASMDefinition

/-- The instruction table `instructions: HashMap<String, ASMInstruction>`. -/
def InstrTable : Type := List (String × ASMInstruction)

/-- First-match association-list lookup, the embedding of
`HashMap::get`. -/
def lookupA {α : Type} : List (String × α) → String → Option α
  | [], _ => none
  | (k, v) :: rest, key => if k = key then some v else lookupA rest key

namespace ASMDefinition

/-- `ASMDefinition::new` (lines 39-53), minus the omitted fields. -/
def new : ASMDefinition :=
  { registers := [], labels := [], log := [], errors := 0,
    halted := false, current_line := 0 }

/-- `ASMDefinition::insert_register` (lines 55-61): inserts the name
mapped to a fresh `Empty` value. -/
def insert_register (st : ASMDefinition) (reg_name : String) : ASMDefinition :=
  { st with registers := (reg_name, ASMValue.Empty) :: st.registers }

/-- `ASMDefinition::insert_instruction` (lines 63-73), acting on the
separately-passed instruction table. -/
def insert_instruction (instrs : InstrTable) (instruction_name : String)
    (closure : ASMInstruction) : InstrTable :=
  (instruction_name, closure) :: instrs

/-- `ASMDefinition::raise_exception` (lines 75-81): records the message
(the `println!`), sets `halted` if requested, increments `errors`. -/
def raise_exception (st : ASMDefinition) (error_message : String)
    (halt_execution : Bool) : ASMDefinition :=
  { st with log := st.log ++ [error_message],
            halted := st.halted || halt_execution,
            errors := st.errors + 1 }

/-- `ASMDefinition::jump` (lines 168-170): `current_line = destination - 1`.
`destination` is a `usize`; the Lean `Nat` subtraction truncates at 0
where the Rust debug build would panic on underflow (`jump(0)`), a case
the spec declares undefined and no claim exercises. -/
def jump (st : ASMDefinition) (destination : Nat) : ASMDefinition :=
  { st with current_line := destination - 1 }

/-- `ASMDefinition::jump_to_value` (lines 150-156).  The `i32 as usize`
cast is the value taken modulo 2^64. -/
def jump_to_value (st : ASMDefinition) (value : ASMValue) : ASMDefinition :=
  match value with
  | ASMValue.Int inner_value => st.jump ((inner_value % (2 ^ 64)).toNat)
  | _ => st.raise_exception "Invalid value of provided destination!" true

/-- `ASMDefinition::jump_to_label` (lines 158-166): a `Label`-kind value
whose name is in the label table jumps to the recorded index; every
other case falls through to raising "Invalid label provided!". -/
def jump_to_label (st : ASMDefinition) (label : ASMValue) : ASMDefinition :=
  match label with
  | ASMValue.Label label_string =>
    match lookupA st.labels label_string with
    | some idx => st.jump idx
    | none => st.raise_exception "Invalid label provided!" true
  | _ => st.raise_exception "Invalid label provided!" true

end ASMDefinition

/-- One fueled unfolding of the `while` loop of `ASMDefinition::run`
(lines 83-148).  The loop-local variables `current_instruction` (here
`pending`, paired with the mnemonic so that callback invocations can be
traced) and `current_args` are threaded explicitly; `trace` is a ghost
list recording, in order, the mnemonic of every callback invoked at an
`ASTExprEnd` token.  `none` means the fuel ran out before the loop
returned.  Note that every error branch of the source ends in
`continue`, which skips the `self.current_line += 1` at the bottom of
the loop body. -/
def runFuel (instrs : InstrTable) :
    Nat → ASMDefinition → Option (String × ASMInstruction) → List ASMValue →
    List String → List ASTNode → Option (ASMDefinition × List String)
  | 0, _, _, _, _, _ => none
  | fuel + 1, st, pending, args, trace, token_stream =>
    if h : st.current_line < token_stream.length then
      let token := token_stream.get ⟨st.current_line, h⟩
      if st.halted then
        some (st, trace)
      else
        match token with
        | ASTNode.ASTValue value =>
          match pending with
          | none =>
            runFuel instrs fuel
              (st.raise_exception "ASTValue encountered with no instruction present" true)
              none args trace token_stream
          | some _ =>
            runFuel instrs fuel { st with current_line := st.current_line + 1 }
              pending (args ++ [value]) trace token_stream
        | ASTNode.ASTInstruction instruction =>
          match pending with
          | some _ =>
            runFuel instrs fuel
              (st.raise_exception
                "ASTInstruction encountered when another instruction is called" true)
              pending args trace token_stream
          | none =>
            match lookupA instrs instruction with
            | none =>
              runFuel instrs fuel (st.raise_exception "Not a valid instruction" true)
                none args trace token_stream
            | some instruction_ref =>
              runFuel instrs fuel { st with current_line := st.current_line + 1 }
                (some (instruction, instruction_ref)) args trace token_stream
        | ASTNode.ASTRegister reference =>
          match pending with
          | none =>
            runFuel instrs fuel
              (st.raise_exception
                "Register reference encountered with no instruction present" false)
              none args trace token_stream
          | some _ =>
            match lookupA st.registers reference with
            | some _ =>
              runFuel instrs fuel { st with current_line := st.current_line + 1 }
                pending (args ++ [ASMValue.Register reference]) trace token_stream
            | none =>
              runFuel instrs fuel
                (st.raise_exception "Register not defined in ASMDefinition" true)
                pending args trace token_stream
        | ASTNode.ASTExprEnd =>
          match pending with
          | some (name, instruction) =>
            let st1 := instruction st args
            runFuel instrs fuel { st1 with current_line := st1.current_line + 1 }
              none [] (trace ++ [name]) token_stream
          | none =>
            runFuel instrs fuel { st with current_line := st.current_line + 1 }
              none args trace token_stream
    else
      some (st, trace)

namespace ASMDefinition

/-- `ASMDefinition::run` (lines 83-148): the loop starting from
`current_instruction = None` and empty `current_args`, with the given
amount of fuel. -/
def run (instrs : InstrTable) (fuel : Nat) (st : ASMDefinition)
    (token_stream : List ASTNode) : Option (ASMDefinition × List String) :=
  runFuel instrs fuel st none [] [] token_stream

end ASMDefinition

/-- `ASMDefinition::run` terminates on the given inputs: some amount of
fuel makes the loop return. -/
def RunTerminates (instrs : InstrTable) (st : ASMDefinition)
    (token_stream : List ASTNode) : Prop :=
  ∃ fuel, (ASMDefinition.run instrs fuel st token_stream).isSome

/-! ## The scanner (`ASMDefinition::scan`, lines 172-232)

Rust string operations are embedded as structural functions on
`List Char` (`String.data`). -/

/-- ASCII fragment of Rust's `char::is_numeric`. -/
def rustIsNumeric (c : Char) : Bool := c.isDigit

/-- ASCII fragment of Rust's `char::is_alphanumeric`. -/
def rustIsAlphanumeric (c : Char) : Bool := c.isAlphanum

/-- Rust's `str::split` on a one-character separator: the list of
(possibly empty) chunks between occurrences of `sep`.  Always returns
at least one chunk, like Rust's `split`. -/
def splitChar (sep : Char) : List Char → List (List Char)
  | [] => [[]]
  | c :: cs =>
    match splitChar sep cs with
    | [] => [[c]]
    | w :: ws => if c = sep then [] :: w :: ws else (c :: w) :: ws

/-- The prefix of the line before the first `";;"` occurrence
(`find(";;")` + `split_once(";;").0`, lines 178-180); the whole line
when there is none. -/
def stripComment : List Char → List Char
  | ';' :: ';' :: _ => []
  | c :: cs => c :: stripComment cs
  | [] => []

/-- Rust's `str::trim_end` (line 181), ASCII-whitespace fragment. -/
def trimEnd (l : List Char) : List Char :=
  (l.reverse.dropWhile Char.isWhitespace).reverse

/-- Rust's `str::parse::<i32>()` on a string of digits: the numeric
value when it fits in an `i32`, `none` (an `Err`, so the source's
`unwrap` panics) on overflow. -/
def parseI32 (w : List Char) : Option Int :=
  let n : Nat := w.foldl (fun a c => 10 * a + (c.toNat - 48)) 0
  if n ≤ 2147483647 then some (Int.ofNat n) else none

namespace ASMDefinition

/-- `ASMDefinition::match_instruction` (lines 202-208): strips
whitespace from the word, raises a halting unknown-mnemonic error when
the word is not a registered instruction name, and emits the
`ASTInstruction` token either way. -/
def match_instruction (instrs : InstrTable) (st : ASMDefinition)
    (w : List Char) : ASTNode × ASMDefinition :=
  let word : String := String.mk (w.filter (fun c => !c.isWhitespace))
  let st1 :=
    if (lookupA instrs word).isSome then st
    else st.raise_exception (word ++ " is an unknown instruction") true
  (ASTNode.ASTInstruction word, st1)

/-- `ASMDefinition::match_argument` (lines 210-232): classifies one
argument word.  `none` models a panic: integer-parse overflow, or the
`todo!()` in the quoted-string branch. -/
def match_argument (st : ASMDefinition) (w : List Char) :
    Option (ASTNode × ASMDefinition) :=
  let word := w.filter (fun c => !c.isWhitespace)
  if word.length = 0 then
    some (ASTNode.ASTExprEnd, st.raise_exception "Empty argument!" true)
  else if word.all rustIsNumeric then
    match parseI32 word with
    | some n => some (ASTNode.ASTValue (ASMValue.Int n), st)
    | none => none
  else if word.all rustIsAlphanumeric then
    some (ASTNode.ASTValue (ASMValue.Label (String.mk word)), st)
  else if word.head? = some '[' ∧ word.getLast? = some ']' then
    some (ASTNode.ASTRegister (String.mk (word.filter rustIsAlphanumeric)), st)
  else if word.getLast? = some '"' ∧ word.head? = some '"' then
    none
  else
    some (ASTNode.ASTExprEnd, st)

/-- The `words.iter().for_each(...)` argument loop of `scan`
(lines 194-196), pushing one token per argument word. -/
def matchArgsAux (st : ASMDefinition) (output : List ASTNode) :
    List (List Char) → Option (List ASTNode × ASMDefinition)
  | [] => some (output, st)
  | w :: ws =>
    match match_argument st w with
    | none => none
    | some (tok, st1) => matchArgsAux st1 (output ++ [tok]) ws

/-- The body of the per-line loop of `scan` (lines 176-198): strip the
comment, trim trailing whitespace, skip empty lines, handle a label
line (first word ending in `:`), otherwise emit the mnemonic token, the
argument tokens and a closing `ASTExprEnd`.  `none` models the panic of
`words[0].chars().last().unwrap()` on an empty first word. -/
def scanLine (instrs : InstrTable) (output : List ASTNode)
    (st : ASMDefinition) (line : List Char) :
    Option (List ASTNode × ASMDefinition) :=
  let usable_line := trimEnd (stripComment line)
  if usable_line.isEmpty then some (output, st)
  else
    match splitChar ' ' usable_line with
    | [] => none
    | w0 :: rest =>
      match w0.getLast? with
      | none => none
      | some lastc =>
        if lastc = ':' then
          some (output,
            { st with labels :=
                (String.mk (w0.filter (fun c => !(c = ':'))), output.length)
                  :: st.labels })
        else
          let p := match_instruction instrs st w0
          match matchArgsAux p.2 (output ++ [p.1]) rest with
          | none => none
          | some (out2, st2) => some (out2 ++ [ASTNode.ASTExprEnd], st2)

/-- The line list of `scan` (line 174): `code.split("\n")`. -/
def scanLinesAux (instrs : InstrTable) :
    List (List Char) → List ASTNode → ASMDefinition →
    Option (List ASTNode × ASMDefinition)
  | [], output, st => some (output, st)
  | line :: rest, output, st =>
    match scanLine instrs output st line with
    | none => none
    | some (output1, st1) => scanLinesAux instrs rest output1 st1

/-- `ASMDefinition::scan` (lines 172-200). -/
def scan (instrs : InstrTable) (st : ASMDefinition) (code : String) :
    Option (List ASTNode × ASMDefinition) :=
  scanLinesAux instrs (splitChar '\n' code.data) [] st

/-- `ASMDefinition::interpret` (lines 234-237): scan, then run the
resulting token stream (with the given fuel for the run loop). -/
def interpret (instrs : InstrTable) (fuel : Nat) (st : ASMDefinition)
    (code : String) : Option (ASMDefinition × List String) :=
  match scan instrs st code with
  | none => none
  | some (ast, st1) => run instrs fuel st1 ast

end ASMDefinition

/-! ## Host instructions for the round-trip scenario

The hosting program (`main.rs` and `asm_value.rs` are not under `src/`)
supplies the instruction callbacks; they are modelled from the spec. -/

/-- Modelled from the spec: resolution of a `Register`-kind value
against the live register table "at the point of use" (spec sections 3
and 9, replacing `asm_value.rs`'s back-pointer dereference, which is
not under `src/`). -/
def resolveValue (st : ASMDefinition) (v : ASMValue) : ASMValue :=
  match v with
  | ASMValue.Register n => (lookupA st.registers n).getD ASMValue.Empty
  | _ => v

/-- Modelled from the spec: the `Int` payload of a resolved value
(0 when the value is not `Int`-kind), used by the arithmetic host
instruction of the round-trip scenario (spec section 8). -/
def asInt (st : ASMDefinition) (v : ASMValue) : Int :=
  match resolveValue st v with
  | ASMValue.Int n => n
  | _ => 0

/-- Modelled from the spec: the host instruction
`SET(dst, val): dst = val` of the round-trip scenario (spec section 8);
stores the second argument into the register named by the first. -/
def hostSET : ASMInstruction := fun st args =>
  match args with
  | [ASMValue.Register dst, v] => { st with registers := (dst, v) :: st.registers }
  | _ => st

/-- Modelled from the spec: the host instruction
`JMP(target): jump_to_label(target)` of the round-trip scenario
(spec section 8). -/
def hostJMP : ASMInstruction := fun st args =>
  match args with
  | [v] => st.jump_to_label v
  | _ => st

/-- Modelled from the spec: the host instruction `ADD` of the
round-trip scenario (spec section 8): the register named by the first
argument receives the sum of the (resolved) value arguments, so that
`ADD [r] [r]` doubles `r`. -/
def hostADD : ASMInstruction := fun st args =>
  match args with
  | ASMValue.Register dst :: _ =>
    { st with registers :=
        (dst, ASMValue.Int (args.foldl (fun a v => a + asInt st v) 0)) :: st.registers }
  | _ => st

/-- The instruction table of the round-trip scenario. -/
def roundTripTable : InstrTable :=
  [("SET", hostSET), ("JMP", hostJMP), ("ADD", hostADD)]

/-- The source program of the round-trip scenario. -/
def roundTripSource : String := "SET [r] 5\nJMP label\nlabel:\nADD [r] [r]"

/-! ## Predicates used to state the scanning claims

These describe, on the statement side, which lines the argument-word
classifier processes without raising an error or panicking; they are
compared against the source functions by the theorems below. -/

/-- An argument word that `match_argument` classifies silently: its
whitespace-stripped form is non-empty, parses when all-numeric, and is
not quote-delimited (mirroring the branch structure of
`match_argument`, whose only error branch is the empty word and whose
only panics are parse overflow and the quoted `todo!()`). -/
def goodArg (w : List Char) : Bool :=
  let word := w.filter (fun c => !c.isWhitespace)
  if word.length = 0 then false
  else if word.all rustIsNumeric then (parseI32 word).isSome
  else if word.all rustIsAlphanumeric then true
  else if word.head? = some '[' ∧ word.getLast? = some ']' then true
  else if word.getLast? = some '"' ∧ word.head? = some '"' then false
  else true

/-- A line the scanner skips: empty after comment stripping and
trailing-whitespace trimming. -/
def lineIsBlank (l : List Char) : Bool :=
  (trimEnd (stripComment l)).isEmpty

/-- The non-blank lines of a source text, i.e. the lines the scanner
treats as labels or statements. -/
def stmtLines (code : String) : List (List Char) :=
  (splitChar '\n' code.data).filter (fun l => !lineIsBlank l)

/-- The whitespace-stripped mnemonic (first word) of a line. -/
def mnemonicOf (l : List Char) : String :=
  match splitChar ' ' (trimEnd (stripComment l)) with
  | [] => ""
  | w0 :: _ => String.mk (w0.filter (fun c => !c.isWhitespace))

/-- The diagnostic `match_instruction` raises for a line whose mnemonic
is not registered. -/
def unknownMsg (l : List Char) : String :=
  mnemonicOf l ++ " is an unknown instruction"

/-- A line within the scope of the amended claim C2: blank, or a
statement (first word non-empty and not ending in `:`) all of whose
argument words are classified silently. -/
def lineC2Good (l : List Char) : Bool :=
  if lineIsBlank l then true
  else
    match splitChar ' ' (trimEnd (stripComment l)) with
    | [] => true
    | w0 :: ws =>
      if w0 = [] then false
      else if w0.getLast? = some ':' then false
      else ws.all goodArg

/-! ## The claims -/

/-- C3: with register `r` and host instructions `SET`, `JMP`, `ADD`
registered, interpreting `"SET [r] 5\nJMP label\nlabel:\nADD [r] [r]"`
halts naturally at end-of-sequence (`current_line` = 11 = the length of
the token stream, `halted` = false, no errors) with register `r`
holding `Int 10`; the callback trace `["SET", "JMP", "ADD"]` shows the
`ADD` statement executed exactly once, the jump having landed on the
`ADD` statement's first token (index 7, which is where the label line,
emitting no tokens itself, points). -/
theorem C3_round_trip :
    (ASMDefinition.interpret roundTripTable 50
        (ASMDefinition.new.insert_register "r") roundTripSource).map
      (fun p => (lookupA p.1.registers "r", p.1.halted, p.1.errors,
                 p.1.current_line, p.2))
    = some (some (ASMValue.Int 10), false, 0, 11, ["SET", "JMP", "ADD"]) ∧
    (ASMDefinition.scan roundTripTable
        (ASMDefinition.new.insert_register "r") roundTripSource).map
      (fun p => (p.1.length, lookupA p.2.labels "label"))
    = some (11, some 7) := ⟨rfl, rfl⟩

/-- C4: for every index `i ≥ 1`, `jump i` sets the cursor to `i - 1`,
and, in the execution loop, an `ASTExprEnd` token whose pending
instruction's callback performs `jump i` continues with the cursor at
exactly `i` after the loop's unconditional post-processing increment,
so the next token processed is the one at position `i`. -/
theorem C4_jump_compensates_increment (instrs : InstrTable) (fuel : Nat)
    (st : ASMDefinition) (i : Nat) (name : String) (args : List ASMValue)
    (trace : List String) (token_stream : List ASTNode) (hi : 1 ≤ i)
    (hcur : st.current_line < token_stream.length)
    (htok : token_stream.get ⟨st.current_line, hcur⟩ = ASTNode.ASTExprEnd)
    (hhalt : st.halted = false) :
    (st.jump i).current_line = i - 1 ∧
    runFuel instrs (fuel + 1) st (some (name, fun s _ => s.jump i)) args
        trace token_stream
      = runFuel instrs fuel { st with current_line := i } none []
          (trace ++ [name]) token_stream := by
  refine ⟨rfl, ?_⟩
  have hstep : i - 1 + 1 = i := by omega
  simp only [runFuel, dif_pos hcur, htok, hhalt, if_false, Bool.false_eq_true,
    ASMDefinition.jump, hstep]

/-- C5: a line whose first whitespace-delimited word ends with `:`
emits no tokens (`output` is returned unchanged) and records the word,
with every colon removed, in the label table mapped to the number of
tokens emitted so far. -/
theorem C5_label_line (instrs : InstrTable) (output : List ASTNode)
    (st : ASMDefinition) (line w0 : List Char) (ws : List (List Char))
    (hsplit : splitChar ' ' (trimEnd (stripComment line)) = w0 :: ws)
    (hcolon : w0.getLast? = some ':') :
    ASMDefinition.scanLine instrs output st line =
      some (output,
        { st with labels :=
            (String.mk (w0.filter (fun c => !(c = ':'))), output.length)
              :: st.labels }) := by
  have hempty : (trimEnd (stripComment line)).isEmpty = false := by
    rcases he : trimEnd (stripComment line) with _ | ⟨c, cs⟩
    · rw [he] at hsplit
      have hw0 : w0 = [] := by
        simp only [splitChar, List.cons.injEq] at hsplit
        exact hsplit.1.symm
      rw [hw0] at hcolon
      simp at hcolon
    · rfl
  simp only [ASMDefinition.scanLine, hempty, Bool.false_eq_true, if_false,
    hsplit, hcolon]
  simp

/-- C6: `jump_to_value` on a `Label`-kind value raises the
invalid-destination error and halts without moving the cursor;
`jump_to_label` on an `Int`-kind value, or on a `Label`-kind value
whose name is absent from the label table, raises the invalid-label
error and halts without moving the cursor. -/
theorem C6_jump_kind_errors (st : ASMDefinition) (s : String) (n : Int)
    (habs : lookupA st.labels s = none) :
    ((st.jump_to_value (ASMValue.Label s)).halted = true ∧
     (st.jump_to_value (ASMValue.Label s)).errors = st.errors + 1 ∧
     (st.jump_to_value (ASMValue.Label s)).current_line = st.current_line ∧
     (st.jump_to_value (ASMValue.Label s)).log
       = st.log ++ ["Invalid value of provided destination!"]) ∧
    ((st.jump_to_label (ASMValue.Int n)).halted = true ∧
     (st.jump_to_label (ASMValue.Int n)).errors = st.errors + 1 ∧
     (st.jump_to_label (ASMValue.Int n)).current_line = st.current_line ∧
     (st.jump_to_label (ASMValue.Int n)).log
       = st.log ++ ["Invalid label provided!"]) ∧
    ((st.jump_to_label (ASMValue.Label s)).halted = true ∧
     (st.jump_to_label (ASMValue.Label s)).errors = st.errors + 1 ∧
     (st.jump_to_label (ASMValue.Label s)).current_line = st.current_line ∧
     (st.jump_to_label (ASMValue.Label s)).log
       = st.log ++ ["Invalid label provided!"]) := by
  simp [ASMDefinition.jump_to_value, ASMDefinition.jump_to_label,
    ASMDefinition.raise_exception, habs]

/-- C6 witness: the three error cases at a concrete machine state. -/
theorem C6_jump_kind_errors_witness :
    ((ASMDefinition.new.jump_to_value (ASMValue.Label "x")).halted = true ∧
     (ASMDefinition.new.jump_to_value (ASMValue.Label "x")).errors
       = ASMDefinition.new.errors + 1 ∧
     (ASMDefinition.new.jump_to_value (ASMValue.Label "x")).current_line
       = ASMDefinition.new.current_line ∧
     (ASMDefinition.new.jump_to_value (ASMValue.Label "x")).log
       = ASMDefinition.new.log ++ ["Invalid value of provided destination!"]) ∧
    ((ASMDefinition.new.jump_to_label (ASMValue.Int 7)).halted = true ∧
     (ASMDefinition.new.jump_to_label (ASMValue.Int 7)).errors
       = ASMDefinition.new.errors + 1 ∧
     (ASMDefinition.new.jump_to_label (ASMValue.Int 7)).current_line
       = ASMDefinition.new.current_line ∧
     (ASMDefinition.new.jump_to_label (ASMValue.Int 7)).log
       = ASMDefinition.new.log ++ ["Invalid label provided!"]) ∧
    ((ASMDefinition.new.jump_to_label (ASMValue.Label "x")).halted = true ∧
     (ASMDefinition.new.jump_to_label (ASMValue.Label "x")).errors
       = ASMDefinition.new.errors + 1 ∧
     (ASMDefinition.new.jump_to_label (ASMValue.Label "x")).current_line
       = ASMDefinition.new.current_line ∧
     (ASMDefinition.new.jump_to_label (ASMValue.Label "x")).log
       = ASMDefinition.new.log ++ ["Invalid label provided!"]) :=
  C6_jump_kind_errors ASMDefinition.new "x" 7 rfl

/-- C8: running the token stream `[ASTExprEnd]` from an un-halted state
at cursor 0 with no pending instruction is a no-op apart from the
cursor advancing past the end: registers, labels, error count, log and
halt flag are all returned unchanged and no callback runs. -/
theorem C8_statement_end_noop (instrs : InstrTable) (fuel : Nat)
    (st : ASMDefinition) (h0 : st.current_line = 0)
    (hh : st.halted = false) :
    ASMDefinition.run instrs (fuel + 2) st [ASTNode.ASTExprEnd]
      = some ({ st with current_line := 1 }, []) := by
  simp [ASMDefinition.run, runFuel, h0, hh]

/-- C8 witness: the no-op run at a concrete machine with one register. -/
theorem C8_statement_end_noop_witness :
    ASMDefinition.run [] 2 (ASMDefinition.new.insert_register "r")
        [ASTNode.ASTExprEnd]
      = some ({ ASMDefinition.new.insert_register "r" with current_line := 1 },
          []) :=
  C8_statement_end_noop [] 0 (ASMDefinition.new.insert_register "r") rfl rfl

/-- C4 witness: a `jump 1` performed at an `ASTExprEnd` token of a
concrete one-token stream. -/
theorem C4_jump_compensates_increment_witness :
    (ASMDefinition.new.jump 1).current_line = 0 ∧
    runFuel [] 1 ASMDefinition.new
        (some ("J", fun s _ => s.jump 1)) [] [] [ASTNode.ASTExprEnd]
      = runFuel [] 0 { ASMDefinition.new with current_line := 1 } none []
          ["J"] [ASTNode.ASTExprEnd] :=
  C4_jump_compensates_increment [] 0 ASMDefinition.new 1 "J" [] []
    [ASTNode.ASTExprEnd] (by decide) (by decide) rfl rfl

/-- C5 witness: a concrete label line emits nothing and records the
label at index 0 (the length of the empty output so far). -/
theorem C5_label_line_witness :
    ASMDefinition.scanLine [] [] ASMDefinition.new ("label:".data)
      = some ([], { ASMDefinition.new with labels := [("label", 0)] }) :=
  C5_label_line [] [] ASMDefinition.new ("label:".data) ("label:".data) []
    rfl rfl

/-- C7 (as stated) is false: the word `"\t"` is non-empty, not
all-numeric, not all-alphanumeric, not `[`..`]`-delimited and not
`"`-delimited, yet the scanner does not stay silent on it: it raises
the (halting) empty-argument error, because the scanner first strips
whitespace characters from the word. -/
theorem C7_counterexample :
    (ASMDefinition.match_argument ASMDefinition.new ("\t".data)).map
        (fun p => (p.1, p.2.errors, p.2.halted))
      = some (ASTNode.ASTExprEnd, 1, true) := rfl

/-- C7 amended: for every argument word that survives the scanner's
initial whitespace-character removal non-empty and whose stripped form
is not all-numeric, not all-alphanumeric, not `[`..`]`-delimited and
not `"`-delimited, `match_argument` silently emits an `ASTExprEnd`
terminator in its place, returning the machine state completely
unchanged (no error, error count unchanged, not halted). -/
theorem C7_malformed_fallback (st : ASMDefinition) (w : List Char)
    (h1 : w.filter (fun c => !c.isWhitespace) ≠ [])
    (h2 : (w.filter (fun c => !c.isWhitespace)).all rustIsNumeric = false)
    (h3 : (w.filter (fun c => !c.isWhitespace)).all rustIsAlphanumeric = false)
    (h4 : ¬((w.filter (fun c => !c.isWhitespace)).head? = some '[' ∧
            (w.filter (fun c => !c.isWhitespace)).getLast? = some ']'))
    (h5 : ¬((w.filter (fun c => !c.isWhitespace)).getLast? = some '"' ∧
            (w.filter (fun c => !c.isWhitespace)).head? = some '"')) :
    ASMDefinition.match_argument st w = some (ASTNode.ASTExprEnd, st) := by
  have hlen : ¬ (w.filter (fun c => !c.isWhitespace)).length = 0 := by
    simpa [List.length_eq_zero] using h1
  simp only [ASMDefinition.match_argument, if_neg hlen, h2, h3,
    Bool.false_eq_true, if_false, if_neg h4, if_neg h5]

/-- C7 witness: the malformed word `@#$` silently becomes a statement
terminator. -/
theorem C7_malformed_fallback_witness :
    ASMDefinition.match_argument ASMDefinition.new ("@#$".data)
      = some (ASTNode.ASTExprEnd, ASMDefinition.new) :=
  C7_malformed_fallback ASMDefinition.new ("@#$".data) (by decide)
    (by decide) (by decide) (by decide) (by decide)

/-- `splitChar` always returns at least one chunk, like Rust's
`str::split`. -/
theorem splitChar_ne_nil (sep : Char) (l : List Char) :
    splitChar sep l ≠ [] := by
  cases l with
  | nil => simp [splitChar]
  | cons c cs =>
    simp only [splitChar]
    rcases h : splitChar sep cs with _ | ⟨w, ws⟩
    · simp
    · by_cases hc : c = sep <;> simp [hc]

/-- C9: a line that is non-empty after comment stripping and
trailing-whitespace trimming but begins with a space makes the first
space-split word empty, so the `unwrap` of that word's last character
panics (modelled as `scanLine` = `none`), and in particular scanning
the single line `" FOO"` panics. -/
theorem C9_leading_space_panics :
    (∀ (instrs : InstrTable) (output : List ASTNode) (st : ASMDefinition)
        (line : List Char),
        (trimEnd (stripComment line)).head? = some ' ' →
        ASMDefinition.scanLine instrs output st line = none) ∧
    ASMDefinition.scan [] ASMDefinition.new " FOO" = none := by
  constructor
  · intro instrs output st line hhead
    rcases he : trimEnd (stripComment line) with _ | ⟨c, cs⟩
    · rw [he] at hhead
      simp at hhead
    · rw [he] at hhead
      simp only [List.head?_cons, Option.some.injEq] at hhead
      subst hhead
      rcases hs : splitChar ' ' cs with _ | ⟨w, ws⟩
      · exact absurd hs (splitChar_ne_nil ' ' cs)
      · simp [ASMDefinition.scanLine, he, splitChar, hs]
  · rfl

/-- C9 witness: the panicking line `" FOO"` at the per-line scanner. -/
theorem C9_leading_space_panics_witness :
    ASMDefinition.scanLine [] [] ASMDefinition.new (" FOO".data) = none :=
  C9_leading_space_panics.1 [] [] ASMDefinition.new (" FOO".data) rfl

/-- C10: an argument word that is empty after whitespace removal (as
produced by two consecutive spaces inside a statement line) raises the
"Empty argument!" error, which sets the halted flag, and an
`ASTExprEnd` token is emitted in its place; concretely, scanning
`"FOO  1"` (with `FOO` registered) yields the terminator at the empty
word's position in the token stream, one error, the halted flag set,
and exactly the empty-argument diagnostic. -/
theorem C10_empty_argument_error :
    (∀ (st : ASMDefinition) (w : List Char),
        w.filter (fun c => !c.isWhitespace) = [] →
        ASMDefinition.match_argument st w
          = some (ASTNode.ASTExprEnd,
              st.raise_exception "Empty argument!" true) ∧
        (st.raise_exception "Empty argument!" true).halted = true) ∧
    (ASMDefinition.scan [("FOO", hostSET)] ASMDefinition.new "FOO  1").map
        (fun p => (p.1, p.2.halted, p.2.errors, p.2.log))
      = some ([ASTNode.ASTInstruction "FOO", ASTNode.ASTExprEnd,
               ASTNode.ASTValue (ASMValue.Int 1), ASTNode.ASTExprEnd],
              true, 1, ["Empty argument!"]) := by
  refine ⟨fun st w hw => ⟨?_, ?_⟩, rfl⟩
  · simp [ASMDefinition.match_argument, hw]
  · simp [ASMDefinition.raise_exception]

/-- C10 witness: the empty word itself. -/
theorem C10_empty_argument_error_witness :
    ASMDefinition.match_argument ASMDefinition.new []
        = some (ASTNode.ASTExprEnd,
            ASMDefinition.new.raise_exception "Empty argument!" true) ∧
      (ASMDefinition.new.raise_exception "Empty argument!" true).halted
        = true :=
  C10_empty_argument_error.1 ASMDefinition.new [] rfl

/-- Auxiliary divergence invariant for C1: on the token stream
`[ASTRegister "x"]`, from any un-halted state at cursor 0 with no
pending instruction, the run loop never returns, whatever the fuel:
the `ASTRegister`-while-idle branch raises a non-halting error and
`continue`s without advancing the cursor, reproducing the same
configuration (with one more error). -/
theorem C1_diverges_aux (instrs : InstrTable) :
    ∀ (fuel : Nat) (regs : List (String × ASMValue))
      (labs : List (String × Nat)) (lg : List String) (e : Nat)
      (args : List ASMValue) (tr : List String),
      runFuel instrs fuel ⟨regs, labs, lg, e, false, 0⟩ none args tr
        [ASTNode.ASTRegister "x"] = none
  | 0, _, _, _, _, _, _ => rfl
  | fuel + 1, regs, labs, lg, e, args, tr =>
    C1_diverges_aux instrs fuel regs labs
      (lg ++ ["Register reference encountered with no instruction present"])
      (e + 1) args tr

/-- C1 (as stated) is false and the code contradicts the spec's
termination guarantee: running the one-token stream `[ASTRegister "x"]`
on a fresh machine does not terminate for any amount of fuel — the
non-halting register-reference-while-idle error branch `continue`s
without advancing the cursor, so the loop reprocesses the same token
forever. -/
theorem C1_run_diverges_on_register_token :
    ∀ fuel, ASMDefinition.run [] fuel ASMDefinition.new
        [ASTNode.ASTRegister "x"] = none := fun fuel =>
  C1_diverges_aux [] fuel [] [] [] 0 [] []

/-- A silently-classified argument word leaves the machine state
untouched and produces a token, on every starting state: `goodArg`
matches the branch structure of `match_argument`. -/
theorem goodArg_spec (w : List Char) (h : goodArg w = true)
    (st : ASMDefinition) :
    ∃ tok, ASMDefinition.match_argument st w = some (tok, st) := by
  simp only [goodArg] at h
  simp only [ASMDefinition.match_argument]
  set word := w.filter (fun c => !c.isWhitespace) with hword
  by_cases hc1 : word.length = 0
  · rw [if_pos hc1] at h
    exact absurd h (by simp)
  · rw [if_neg hc1] at h ⊢
    by_cases hc2 : word.all rustIsNumeric = true
    · rw [if_pos hc2] at h ⊢
      rcases hp : parseI32 word with _ | n
      · rw [hp] at h
        simp at h
      · exact ⟨_, rfl⟩
    · rw [if_neg hc2] at h ⊢
      by_cases hc3 : word.all rustIsAlphanumeric = true
      · rw [if_pos hc3]
        exact ⟨_, rfl⟩
      · rw [if_neg hc3] at h ⊢
        by_cases hc4 : word.head? = some '[' ∧ word.getLast? = some ']'
        · rw [if_pos hc4]
          exact ⟨_, rfl⟩
        · rw [if_neg hc4] at h ⊢
          by_cases hc5 : word.getLast? = some '"' ∧ word.head? = some '"'
          · rw [if_pos hc5] at h
            exact absurd h (by simp)
          · rw [if_neg hc5]
            exact ⟨_, rfl⟩

/-- The argument loop over silently-classified words leaves the machine
state untouched. -/
theorem matchArgsAux_quiet (ws : List (List Char)) :
    ∀ (st : ASMDefinition) (output : List ASTNode),
      (∀ w ∈ ws, goodArg w = true) →
      ∃ out2, ASMDefinition.matchArgsAux st output ws = some (out2, st) := by
  induction ws with
  | nil => exact fun st output _ => ⟨output, rfl⟩
  | cons w ws ih =>
    intro st output h
    obtain ⟨tok, htok⟩ := goodArg_spec w (h w (by simp)) st
    obtain ⟨out2, hout⟩ :=
      ih st (output ++ [tok]) (fun x hx => h x (by simp [hx]))
    exact ⟨out2, by simp [ASMDefinition.matchArgsAux, htok, hout]⟩

/-- With no instructions registered, a statement line within the scope
of the amended claim C2 changes the machine state by exactly one
(halting) unknown-mnemonic error. -/
theorem scanLine_unknown (output : List ASTNode) (st : ASMDefinition)
    (l : List Char) (hb : lineIsBlank l = false)
    (hg : lineC2Good l = true) :
    ∃ out2, ASMDefinition.scanLine [] output st l
      = some (out2, st.raise_exception (unknownMsg l) true) := by
  simp only [lineC2Good, hb, Bool.false_eq_true, if_false] at hg
  rcases hs : splitChar ' ' (trimEnd (stripComment l)) with _ | ⟨w0, ws⟩
  · exact absurd hs (splitChar_ne_nil _ _)
  · rw [hs] at hg
    dsimp only at hg
    by_cases hw0 : w0 = []
    · rw [if_pos hw0] at hg
      exact absurd hg (by simp)
    · rw [if_neg hw0] at hg
      by_cases hcolon : w0.getLast? = some ':'
      · rw [if_pos hcolon] at hg
        exact absurd hg (by simp)
      · rw [if_neg hcolon] at hg
        rcases hlast : w0.getLast? with _ | c
        · exact absurd (List.getLast?_eq_none_iff.mp hlast) hw0
        · have hcne : ¬ c = ':' := fun hc => hcolon (by rw [hlast, hc])
          have hmn : ASMDefinition.match_instruction [] st w0
              = (ASTNode.ASTInstruction (mnemonicOf l),
                 st.raise_exception (unknownMsg l) true) := by
            simp only [ASMDefinition.match_instruction, lookupA,
              Option.isSome_none, Bool.false_eq_true, if_false, unknownMsg,
              mnemonicOf, hs]
          obtain ⟨out2, hargs⟩ := matchArgsAux_quiet ws
            (st.raise_exception (unknownMsg l) true)
            (output ++ [ASTNode.ASTInstruction (mnemonicOf l)])
            (by intro x hx; exact (List.all_eq_true.mp hg) x hx)
          refine ⟨out2 ++ [ASTNode.ASTExprEnd], ?_⟩
          have hbe : (trimEnd (stripComment l)).isEmpty = false := hb
          simp only [ASMDefinition.scanLine, hbe, Bool.false_eq_true,
            if_false, hs, hlast, if_neg hcne, hmn, hargs]

/-- A blank line (empty after comment stripping and trimming) is
skipped: no tokens, no state change. -/
theorem scanLine_blank (instrs : InstrTable) (output : List ASTNode)
    (st : ASMDefinition) (l : List Char) (hb : lineIsBlank l = true) :
    ASMDefinition.scanLine instrs output st l = some (output, st) := by
  rw [lineIsBlank] at hb
  simp only [ASMDefinition.scanLine, hb, if_true]

/-- The per-line loop of `scan`, with no instructions registered, over
lines within the scope of the amended claim C2: every non-blank line
contributes exactly one halting unknown-mnemonic error and exactly its
own diagnostic to the log, and nothing else in the state changes. -/
theorem scanLinesAux_noInstr (lines : List (List Char)) :
    ∀ (output : List ASTNode) (st : ASMDefinition),
      (∀ l ∈ lines, lineC2Good l = true) →
      ∃ out2, ASMDefinition.scanLinesAux [] lines output st
        = some (out2,
            { st with
                log := st.log
                  ++ (lines.filter (fun l => !lineIsBlank l)).map unknownMsg,
                errors := st.errors
                  + (lines.filter (fun l => !lineIsBlank l)).length,
                halted := st.halted
                  || !(lines.filter (fun l => !lineIsBlank l)).isEmpty }) := by
  induction lines with
  | nil =>
    intro output st _
    exact ⟨output, by simp [ASMDefinition.scanLinesAux]⟩
  | cons l rest ih =>
    intro output st h
    rcases hb : lineIsBlank l with _ | _
    · -- statement line: one unknown-mnemonic error, then the rest
      obtain ⟨out1, h1⟩ := scanLine_unknown output st l hb (h l (by simp))
      obtain ⟨out2, h2⟩ := ih out1 (st.raise_exception (unknownMsg l) true)
        (fun x hx => h x (by simp [hx]))
      refine ⟨out2, ?_⟩
      simp only [ASMDefinition.raise_exception] at h2
      simp only [ASMDefinition.scanLinesAux, h1,
        ASMDefinition.raise_exception]
      rw [h2]
      simp [List.filter_cons, hb, List.append_assoc, Nat.add_comm,
        Nat.add_left_comm, Nat.add_assoc]
    · -- blank line: skipped
      have hskip := scanLine_blank [] output st l hb
      obtain ⟨out2, h2⟩ := ih output st (fun x hx => h x (by simp [hx]))
      refine ⟨out2, ?_⟩
      simp only [ASMDefinition.scanLinesAux, hskip]
      rw [h2]
      simp [List.filter_cons, hb]

/-- C2 (as stated) is false: scanning the single statement line
`"FOO  1"` (non-empty, not a label) on a machine with no instructions
produces two errors, not exactly one — the unknown mnemonic plus the
empty-argument error from the double space — and sets the halted flag,
because the unknown-mnemonic error is raised as halting. -/
theorem C2_counterexample :
    (ASMDefinition.scan [] ASMDefinition.new "FOO  1").map
        (fun p => (p.2.errors, p.2.halted, p.2.log))
      = some (2, true,
          ["FOO is an unknown instruction", "Empty argument!"]) := rfl

/-- C2 amended: with no instructions registered, scanning a source
text in which every non-blank line is a statement (not a label) whose
first word is non-empty and whose argument words are all classified
silently produces exactly one structural error per non-empty statement
— precisely the unknown-mnemonic diagnostic of that statement —
scanning completes and returns a token stream, registers and labels
are untouched, and the halted flag ends up set exactly when there is
at least one statement (the unknown-mnemonic error is halting). -/
theorem C2_unknown_mnemonic_per_statement (code : String)
    (h : ∀ l ∈ splitChar '\n' code.data, lineC2Good l = true) :
    ∃ output stF,
      ASMDefinition.scan [] ASMDefinition.new code = some (output, stF) ∧
      stF.errors = (stmtLines code).length ∧
      stF.log = (stmtLines code).map unknownMsg ∧
      stF.halted = !(stmtLines code).isEmpty ∧
      stF.registers = [] ∧ stF.labels = [] := by
  obtain ⟨out2, hs⟩ :=
    scanLinesAux_noInstr (splitChar '\n' code.data) [] ASMDefinition.new h
  refine ⟨out2, _, hs, ?_, ?_, ?_, rfl, rfl⟩ <;>
    simp [ASMDefinition.new, stmtLines]

/-- C2 witness: a two-statement source with well-formed arguments gives
exactly two unknown-mnemonic errors and a set halted flag. -/
theorem C2_unknown_mnemonic_per_statement_witness :
    ∃ output stF,
      ASMDefinition.scan [] ASMDefinition.new "FOO 1\nBAR [x]"
          = some (output, stF) ∧
      stF.errors = (stmtLines "FOO 1\nBAR [x]").length ∧
      stF.log = (stmtLines "FOO 1\nBAR [x]").map unknownMsg ∧
      stF.halted = !(stmtLines "FOO 1\nBAR [x]").isEmpty ∧
      stF.registers = [] ∧ stF.labels = [] :=
  C2_unknown_mnemonic_per_statement "FOO 1\nBAR [x]" (by decide)
